import Mathlib

/-!
Shallow embedding of the memory-representation core of the oxc snapshot:

* `crates/oxc_syntax/src/nonmax.rs` — the `NonMax*` niche integer family.
  Each width is a number of bytes `b`; the Rust type stores `b - 1` low
  ("bottom") bytes plus one `NonMaxU8` top byte (value ≤ 254), and
  `to_native`/`new_unchecked` are bit reinterpretations.  We model a value
  as the pair (bottom, top) of the little-endian decomposition, so
  `to_native` is the recomposition `bottom + top * 256^(b-1)`.
  A panicking constructor is modelled as `Option`, `TryFrom` as `Except`.

* `crates/oxc_ast_macros/src/lib.rs` — the `#[ast]` attribute choosing a
  `repr` for every AST type definition.

* `tasks/ast_tools/src/derives/content_hash.rs` — the `ContentHash`
  derivation; the generated token stream is modelled by the list of hash
  absorption steps it performs.
-/

namespace Oxc

/-- `NonMax*::MAX` from nonmax.rs: `((255 as $native) << ($native::BITS - 8)) - 1`,
computed in native (wrapping at `2 ^ bits`) arithmetic. -/
def nonmaxMAX (bits : Nat) : Nat := (255 <<< (bits - 8)) % 2 ^ bits - 1

/-- A `NonMax` value of `b` bytes: the `b - 1` low bytes (as one number
`bottom < 256 ^ (b-1)`) plus the top `NonMaxU8` byte, exactly the
(little-endian) field layout of `NonMaxU16`/`U32`/`U64`/`U128`/`Usize`.
Validity (`bottom` in range, `top ≤ 254`) is the predicate `NonMax.wf`. -/
structure NonMax (b : Nat) where
  bottom : Nat
  top : Nat
deriving DecidableEq

/-- The type invariant the Rust types carry by construction: the bottom
bytes fit in `b - 1` bytes and the top byte is a legal `NonMaxU8`. -/
def NonMax.wf {b : Nat} (x : NonMax b) : Prop :=
  x.bottom < 256 ^ (b - 1) ∧ x.top ≤ 254

/-- `to_native`: reinterpret the bytes as the native integer
(little-endian recomposition). -/
def NonMax.to_native {b : Nat} (x : NonMax b) : Nat :=
  x.bottom + x.top * 256 ^ (b - 1)

/-- `new_unchecked`: reinterpret the native integer's bytes as a `NonMax`
(little-endian decomposition); caller must guarantee `n ≤ MAX`. -/
def NonMax.new_unchecked (b n : Nat) : NonMax b :=
  ⟨n % 256 ^ (b - 1), n / 256 ^ (b - 1)⟩

/-- `new`: asserts `n <= Self::MAX` then calls `new_unchecked`.
The panic on assertion failure is modelled as `none`. -/
def NonMax.new (b n : Nat) : Option (NonMax b) :=
  if n ≤ nonmaxMAX (8 * b) then some (NonMax.new_unchecked b n) else none

/-- `TryFrom::try_from`: `Ok` when `n <= Self::MAX`, else `Err(())`. -/
def NonMax.try_from (b n : Nat) : Except Unit (NonMax b) :=
  if n ≤ nonmaxMAX (8 * b) then Except.ok (NonMax.new_unchecked b n)
  else Except.error ()

/-- `PartialEq::eq`: compares `to_native` values. -/
def NonMax.beq {b : Nat} (x y : NonMax b) : Bool :=
  x.to_native == y.to_native

/-- `Ord::cmp`: compares `to_native` values with the native ordering. -/
def NonMax.cmp {b : Nat} (x y : NonMax b) : Ordering :=
  compare x.to_native y.to_native

/-! Memory layout model for the `const` assertions of `impl_nonmax!`:
`size_of::<$nonmax>() == size_of::<$native>()` and likewise for alignment.
We model Rust `repr(C)` struct layout (fields at offsets rounded up to their
alignment, struct alignment the maximum of the field alignments and any
`align(n)` attribute, size rounded up to the struct alignment). -/

/-- Size and alignment of a type, in bytes. -/
structure Layout where
  size : Nat
  align : Nat
deriving DecidableEq

/-- Round `n` up to the next multiple of `a`. -/
def alignUp (n a : Nat) : Nat := (n + a - 1) / a * a

/-- `repr(C)` struct layout: `minAlign` is the `align(n)` attribute (1 when
absent); fields are laid out in declaration order. -/
def reprC (fields : List Layout) (minAlign : Nat) : Layout :=
  let al := fields.foldl (fun a f => max a f.align) minAlign
  let sz := fields.foldl (fun off f => alignUp off f.align + f.size) 0
  ⟨alignUp sz al, al⟩

/-- Layout of a `[u8; n]` array. -/
def layoutBytes (n : Nat) : Layout := ⟨n, 1⟩

/-- Native `u8` layout. -/
def layoutU8 : Layout := ⟨1, 1⟩

/-- `NonMaxU8` is a `repr(u8)` fieldless enum: one byte, alignment one. -/
def layoutNonMaxU8 : Layout := ⟨1, 1⟩

/-- `NonMaxU16`: `repr(C, align(2))` struct `{ bottom: u8, top: NonMaxU8 }`
(little-endian field order). -/
def layoutNonMaxU16 : Layout := reprC [layoutBytes 1, layoutNonMaxU8] 2

/-- `NonMaxU32`: `repr(C, align(4))` struct `{ bottom: [u8; 3], top: NonMaxU8 }`. -/
def layoutNonMaxU32 : Layout := reprC [layoutBytes 3, layoutNonMaxU8] 4

/-- `NonMaxU64`: `repr(C, align(8))` struct `{ bottom: [u8; 7], top: NonMaxU8 }`. -/
def layoutNonMaxU64 : Layout := reprC [layoutBytes 7, layoutNonMaxU8] 8

/-- `NonMaxU128`: `repr(C)` struct `{ bottom: [u8; 15], top: NonMaxU8,
_align: [u128; 0] }` where `a128` is the platform alignment of `u128`. -/
def layoutNonMaxU128 (a128 : Nat) : Layout :=
  reprC [layoutBytes 15, layoutNonMaxU8, ⟨0, a128⟩] 1

/-- `NonMaxUsize`: `repr(C)` struct `{ bottom: [u8; size_of::<usize>() - 1],
top: NonMaxU8, _align: [usize; 0] }` where `p` is `size_of::<usize>()`. -/
def layoutNonMaxUsize (p : Nat) : Layout :=
  reprC [layoutBytes (p - 1), layoutNonMaxU8, ⟨0, p⟩] 1

/-- Native `u16` layout on the targets Rust supports. -/
def layoutU16 : Layout := ⟨2, 2⟩

/-- Native `u32` layout. -/
def layoutU32 : Layout := ⟨4, 4⟩

/-- Native `u64` layout (64-bit targets). -/
def layoutU64 : Layout := ⟨8, 8⟩

/-- Native `u128` layout: 16 bytes, alignment `a128` (8 on older rustc,
16 on newer). -/
def layoutU128 (a128 : Nat) : Layout := ⟨16, a128⟩

/-- Native `usize` layout: `p` bytes, alignment `p` (`p = 4` or `8`). -/
def layoutUsize (p : Nat) : Layout := ⟨p, p⟩

/-! Model of `tasks/ast_tools/src/derives/content_hash.rs`.  The schema
types (`StructDef`, `EnumDef`, field and variant accessors) live in the
ast_tools schema module, which is not part of the snapshot; they are
modelled by the data the derive reads: a field's optional name and the
inner name of its type, a variant's identifier and whether it is a unit
(payload-free) variant. -/

/-- A schema field: `field.name` (`None` for tuple-struct fields) and
`field.typ.name().inner_name()`. -/
structure FieldDef where
  name : Option String
  typName : String
deriving DecidableEq

/-- A schema struct definition: its fields in declaration order. -/
structure StructDef where
  fields : List FieldDef
deriving DecidableEq

/-- A schema enum variant: `var.ident()` and `var.is_unit()`. -/
structure VariantDef where
  ident : String
  isUnit : Bool
deriving DecidableEq

/-- A schema enum definition: `def.all_variants()` in declaration order. -/
structure EnumDef where
  variants : List VariantDef
deriving DecidableEq

/-- Modelled from the spec: `EnumDef::is_unit` (schema accessor not in the
snapshot) — a sum type is "unit" when **all** its variants are payload-free. -/
def EnumDef.is_unit (d : EnumDef) : Bool := d.variants.all (·.isUnit)

/-- `field.ident()` of a named field is its name. -/
def FieldDef.ident (f : FieldDef) : String := f.name.getD ""

/-- `IGNORE_FIELDS`: the fixed `(field name, field type)` exclusion table. -/
def IGNORE_FIELDS : List (String × String) :=
  [("span", "Span"), ("trailing_comma", "Span"), ("this_span", "Span"),
   ("scope_id", "ScopeId"), ("symbol_id", "SymbolId"),
   ("reference_id", "ReferenceId")]

/-- The filter closure of `derive_struct`: a field is kept when it has a
name (`let Some(name) = field.name.as_ref() else return false`) and its
`(name, type)` pair matches no `IGNORE_FIELDS` entry. -/
def notIgnored (f : FieldDef) : Bool :=
  match f.name with
  | none => false
  | some name =>
    !(IGNORE_FIELDS.any fun it => name == it.1 && f.typName == it.2)

/-- `derive_struct`: returns the hasher parameter name (`"_"` when the body
is empty, `"state"` otherwise) and the body, modelled as the list of field
idents absorbed (`self.#ident.content_hash(state);`) in order. -/
def derive_struct (d : StructDef) : String × List String :=
  if d.fields.isEmpty then ("_", [])
  else
    let fields := (d.fields.filter notIgnored).map FieldDef.ident
    if fields.isEmpty then ("_", []) else ("state", fields)

/-- The generated enum body after the discriminant absorption:
whether a `match self` statement is generated, its arms
(`Self::#ident(it) => it.content_hash(state)`, one per payload-carrying
variant, in order), and whether a `_ => {}` fallback arm is appended. -/
structure EnumHashBody where
  hasMatch : Bool
  arms : List VariantDef
  fallback : Bool
deriving DecidableEq

/-- `derive_enum`: always absorbs `discriminant(self)` first; for a unit
enum no match is generated; otherwise one arm per non-unit variant and a
fallback arm exactly when some variant is unit. -/
def derive_enum (d : EnumDef) : String × EnumHashBody :=
  if d.is_unit then ("state", ⟨false, [], false⟩)
  else
    let arms := d.variants.filter fun v => !v.isUnit
    let fallback := d.variants.any (·.isUnit)
    ("state", ⟨true, arms, fallback⟩)

/-- One hash absorption performed by a generated `content_hash` body. -/
inductive HashStep
  | discr
  | payload (ident : String)
deriving DecidableEq

/-- Evaluate the generated `match self` on a value of variant `v`: the
first arm `Self::#ident(it)` whose ident matches (and `v` does carry a
payload) absorbs the payload; otherwise the fallback absorbs nothing;
with no matching arm and no fallback the match errors (`none`). -/
def runMatch (arms : List VariantDef) (fallback : Bool) (v : VariantDef) :
    Option (List HashStep) :=
  match arms.find? (fun a => a.ident == v.ident && !v.isUnit) with
  | some a => some [HashStep.payload a.ident]
  | none => if fallback then some [] else none

/-- Evaluate the whole generated enum `content_hash` body on a value of
variant `v`: the discriminant absorption followed by the match (if any). -/
def runEnumHash (d : EnumDef) (v : VariantDef) : Option (List HashStep) :=
  let body := (derive_enum d).2
  if body.hasMatch then
    (runMatch body.arms body.fallback v).map fun rest => HashStep.discr :: rest
  else
    some [HashStep.discr]

/-- The fields `derive_struct` actually absorbs: named fields whose
`(name, type)` pair is not in `IGNORE_FIELDS`, in declaration order. -/
def keptFields (d : StructDef) : List FieldDef := d.fields.filter notIgnored

/-- The fields the claim says are absorbed: every field except those whose
`(name, type)` pair is one of the six `IGNORE_FIELDS` entries (an unnamed
field matches no entry, so the claim absorbs it). -/
def claimedFields (d : StructDef) : List FieldDef :=
  d.fields.filter fun f =>
    !(IGNORE_FIELDS.any fun it => f.name == some it.1 && f.typName == it.2)

/-- The fields an amended claim says are absorbed: every **named** field
whose `(name, type)` pair is not one of the six `IGNORE_FIELDS` entries. -/
def amendedFields (d : StructDef) : List FieldDef :=
  d.fields.filter fun f =>
    f.name.isSome &&
      !(IGNORE_FIELDS.any fun it => f.name == some it.1 && f.typName == it.2)

/-! Model of `crates/oxc_ast_macros/src/lib.rs`: the `#[ast]` attribute
and `enum_repr`.  `syn::Fields` distinguishes unit, named and unnamed
field lists; `syn::Item` is restricted to the shapes `ast` accepts. -/

/-- `syn::Fields` of a variant. -/
inductive SynFields
  | unit
  | named (n : Nat)
  | unnamed (n : Nat)
deriving DecidableEq

/-- A `syn` enum variant (only its fields matter to `enum_repr`). -/
structure SynVariant where
  fields : SynFields
deriving DecidableEq

/-- A `syn::ItemEnum` (only its variants matter). -/
structure SynItemEnum where
  variants : List SynVariant
deriving DecidableEq

/-- The `repr` attribute the `ast` attribute prepends. -/
inductive ReprAttr
  | c
  | cU8
  | u8
deriving DecidableEq

/-- `enum_repr`: `#[repr(C, u8)]` if any variant has non-unit fields,
otherwise `#[repr(u8)]`. -/
def enum_repr (e : SynItemEnum) : ReprAttr :=
  if e.variants.any (fun v => !(v.fields == SynFields.unit)) then ReprAttr.cU8
  else ReprAttr.u8

/-- The `syn::Item` shapes reaching the `match` in `ast`. -/
inductive SynItem
  | enumItem (e : SynItemEnum)
  | structItem
  | otherItem
deriving DecidableEq

/-- The `repr` chosen by the `ast` attribute: structs get `#[repr(C)]`,
enums go through `enum_repr`, anything else is `unreachable!` (`none`). -/
def astRepr : SynItem → Option ReprAttr
  | SynItem.enumItem e => some (enum_repr e)
  | SynItem.structItem => some ReprAttr.c
  | SynItem.otherItem => none

/-! Helper lemmas. -/

theorem to_native_new_unchecked (b n : Nat) :
    (NonMax.new_unchecked b n).to_native = n := by
  simp [NonMax.new_unchecked, NonMax.to_native, Nat.mod_add_div']

theorem nonmaxMAX_formula (b : Nat) (hb : 1 ≤ b) :
    nonmaxMAX (8 * b) = 255 <<< (8 * b - 8) - 1 := by
  unfold nonmaxMAX
  congr 1
  apply Nat.mod_eq_of_lt
  rw [Nat.shiftLeft_eq]
  have hsplit : 8 * b = (8 * b - 8) + 8 := by omega
  rw [hsplit, pow_add]
  have hx : (0 : Nat) < 2 ^ (8 * b - 8) := pow_pos (by norm_num) _
  calc 255 * 2 ^ (8 * b - 8) < 256 * 2 ^ (8 * b - 8) :=
        Nat.mul_lt_mul_of_lt_of_le (by norm_num) (Nat.le_refl _) hx
    _ = 2 ^ (8 * b - 8) * 2 ^ 8 := by rw [Nat.mul_comm]; norm_num

/-! Claims about the `NonMax*` family. -/

/-- C1: for every width (any byte count `b`) and every native `n` with
`n ≤ MAX`, `new(n)` succeeds and `to_native` returns `n` unchanged. -/
theorem nonmax_roundtrip (b n : Nat) (h : n ≤ nonmaxMAX (8 * b)) :
    (NonMax.new b n).map NonMax.to_native = some n := by
  simp [NonMax.new, h, to_native_new_unchecked]

theorem nonmax_roundtrip_witness :
    (NonMax.new 4 4278190079).map NonMax.to_native = some 4278190079 :=
  nonmax_roundtrip 4 4278190079 (by decide)

/-- C2: for every width, `new` panics (`none`) and `try_from` returns
`Err(())` exactly when `n` exceeds `MAX`; for `n ≤ MAX` both succeed. -/
theorem nonmax_rejection (b n : Nat) :
    (nonmaxMAX (8 * b) < n →
      NonMax.new b n = none ∧ NonMax.try_from b n = Except.error ()) ∧
    (n ≤ nonmaxMAX (8 * b) →
      NonMax.new b n = some (NonMax.new_unchecked b n) ∧
      NonMax.try_from b n = Except.ok (NonMax.new_unchecked b n)) := by
  constructor
  · intro h
    have h2 : ¬ n ≤ nonmaxMAX (8 * b) := by omega
    simp [NonMax.new, NonMax.try_from, h2]
  · intro h
    simp [NonMax.new, NonMax.try_from, h]

theorem nonmax_rejection_witness :
    (NonMax.new 1 255 = none ∧ NonMax.try_from 1 255 = Except.error ()) ∧
    (NonMax.new 1 254 = some (NonMax.new_unchecked 1 254) ∧
      NonMax.try_from 1 254 = Except.ok (NonMax.new_unchecked 1 254)) :=
  ⟨(nonmax_rejection 1 255).1 (by decide), (nonmax_rejection 1 254).2 (by decide)⟩

/-- C3: `MAX(W) = (255 << (W - 8)) - 1` for every width `W = 8 * b`, and
the tabulated values for W = 8, 16, 32, 64. -/
theorem nonmax_MAX_values :
    nonmaxMAX 8 = 254 ∧ nonmaxMAX 16 = 65279 ∧ nonmaxMAX 32 = 4278190079 ∧
    nonmaxMAX 64 = 18374686479671623679 ∧
    ∀ b : Nat, 1 ≤ b → nonmaxMAX (8 * b) = 255 <<< (8 * b - 8) - 1 :=
  ⟨by decide, by decide, by decide, by decide, nonmaxMAX_formula⟩

theorem nonmax_MAX_values_witness :
    nonmaxMAX (8 * 16) = 255 <<< (8 * 16 - 8) - 1 :=
  nonmax_MAX_values.2.2.2.2 16 (by norm_num)

/-- C8: equality and ordering of `NonMax` values built from legal natives
`a`, `c` match the native comparison of `a` and `c`; and on well-formed
values the ordering is antisymmetric (`cmp x y = eq → x = y`), so it is a
total order matching the native one. -/
theorem nonmax_order_preservation (b a c : Nat)
    (ha : a ≤ nonmaxMAX (8 * b)) (hc : c ≤ nonmaxMAX (8 * b)) :
    NonMax.new b a = some (NonMax.new_unchecked b a) ∧
    NonMax.new b c = some (NonMax.new_unchecked b c) ∧
    NonMax.beq (NonMax.new_unchecked b a) (NonMax.new_unchecked b c) = (a == c) ∧
    NonMax.cmp (NonMax.new_unchecked b a) (NonMax.new_unchecked b c) = compare a c ∧
    (∀ x y : NonMax b, x.wf → y.wf → NonMax.cmp x y = Ordering.eq → x = y) := by
  refine ⟨by simp [NonMax.new, ha], by simp [NonMax.new, hc], ?_, ?_, ?_⟩
  · unfold NonMax.beq
    rw [to_native_new_unchecked, to_native_new_unchecked]
  · unfold NonMax.cmp
    rw [to_native_new_unchecked, to_native_new_unchecked]
  · intro x y hx hy hcmp
    have hm : 0 < 256 ^ (b - 1) := pow_pos (by norm_num) _
    have e : x.to_native = y.to_native := by
      unfold NonMax.cmp at hcmp
      exact compare_eq_iff_eq.mp hcmp
    have etop : x.top = y.top := by
      have d1 : x.to_native / 256 ^ (b - 1) = x.top := by
        unfold NonMax.to_native
        rw [Nat.add_mul_div_right _ _ hm, Nat.div_eq_of_lt hx.1, Nat.zero_add]
      have d2 : y.to_native / 256 ^ (b - 1) = y.top := by
        unfold NonMax.to_native
        rw [Nat.add_mul_div_right _ _ hm, Nat.div_eq_of_lt hy.1, Nat.zero_add]
      rw [← d1, ← d2, e]
    have ebot : x.bottom = y.bottom := by
      have e2 := e
      unfold NonMax.to_native at e2
      rw [etop] at e2
      exact Nat.add_right_cancel e2
    cases x
    cases y
    simp_all

theorem nonmax_order_preservation_witness :
    NonMax.beq (NonMax.new_unchecked 1 3) (NonMax.new_unchecked 1 200) = (3 == 200) ∧
    NonMax.cmp (NonMax.new_unchecked 1 3) (NonMax.new_unchecked 1 200) = compare 3 200 := by
  have h := nonmax_order_preservation 1 3 200 (by decide) (by decide)
  exact ⟨h.2.2.1, h.2.2.2.1⟩

/-- C9: each `NonMax*` type has the same size and alignment as its native
integer (the `const` assertions of `impl_nonmax!`), for every platform
alignment of `u128` (8 or 16) and pointer size (4 or 8 bytes). -/
theorem nonmax_layout_eq (a128 p : Nat)
    (h128 : a128 = 8 ∨ a128 = 16) (hp : p = 4 ∨ p = 8) :
    layoutNonMaxU8 = layoutU8 ∧
    layoutNonMaxU16 = layoutU16 ∧
    layoutNonMaxU32 = layoutU32 ∧
    layoutNonMaxU64 = layoutU64 ∧
    layoutNonMaxU128 a128 = layoutU128 a128 ∧
    layoutNonMaxUsize p = layoutUsize p := by
  rcases h128 with h | h <;> rcases hp with h2 | h2 <;> subst h <;> subst h2 <;>
    exact ⟨rfl, by decide, by decide, by decide, by decide, by decide⟩

theorem nonmax_layout_eq_witness :
    layoutNonMaxU8 = layoutU8 ∧
    layoutNonMaxU16 = layoutU16 ∧
    layoutNonMaxU32 = layoutU32 ∧
    layoutNonMaxU64 = layoutU64 ∧
    layoutNonMaxU128 16 = layoutU128 16 ∧
    layoutNonMaxUsize 8 = layoutUsize 8 :=
  nonmax_layout_eq 16 8 (Or.inr rfl) (Or.inr rfl)

theorem notIgnored_eq (f : FieldDef) :
    notIgnored f =
      (f.name.isSome &&
        !(IGNORE_FIELDS.any fun it => f.name == some it.1 && f.typName == it.2)) := by
  rcases f with ⟨name, ty⟩
  cases name with
  | none => rfl
  | some nm => simp [notIgnored, Option.isSome]

theorem derive_struct_char (d : StructDef) :
    derive_struct d =
      if (keptFields d).isEmpty then ("_", ([] : List String))
      else ("state", (keptFields d).map FieldDef.ident) := by
  unfold derive_struct keptFields
  rcases d with ⟨fs⟩
  cases fs with
  | nil => simp
  | cons f t =>
    have h2 : ∀ l : List FieldDef,
        (l.map FieldDef.ident).isEmpty = l.isEmpty := by
      intro l
      cases l <;> rfl
    simp only [List.isEmpty_cons, Bool.false_eq_true, if_false, h2]

/-! Claims about the `ContentHash` derivation and the `ast` attribute. -/

/-- C4 counterexample: an unnamed (tuple-struct) field of a type outside
the ignore table is *not* absorbed, though its `(name, type)` pair matches
no `IGNORE_FIELDS` entry — the body differs from the claimed field list. -/
theorem content_hash_skip_exact_cex :
    (derive_struct ⟨[⟨none, "Expression"⟩]⟩).2 ≠
      (claimedFields ⟨[⟨none, "Expression"⟩]⟩).map FieldDef.ident := by
  decide

/-- C4 amended: the generated body absorbs, in declaration order, exactly
the **named** fields whose `(name, type)` pair is not one of the six
`IGNORE_FIELDS` entries; unnamed fields are skipped as well. -/
theorem content_hash_struct_fields (d : StructDef) :
    (derive_struct d).2 = (amendedFields d).map FieldDef.ident := by
  rw [derive_struct_char]
  have hk : keptFields d = amendedFields d := by
    unfold keptFields amendedFields
    exact List.filter_congr fun f _ => notIgnored_eq f
  by_cases h : (keptFields d).isEmpty
  · rw [if_pos h]
    rw [← hk, List.isEmpty_iff] at *
    rw [h]
    rfl
  · rw [if_neg h, hk]

/-- C6: the generated enum body absorbs the discriminant first; a
payload-carrying variant then absorbs its payload through its match arm; a
payload-free variant falls through to the `_ => {}` arm (or there is no
match at all for a unit enum) — never a match error. -/
theorem content_hash_enum (d : EnumDef) (v : VariantDef) (hv : v ∈ d.variants) :
    runEnumHash d v =
      some (HashStep.discr ::
        if v.isUnit then [] else [HashStep.payload v.ident]) := by
  by_cases hu : d.is_unit
  · have hvu : v.isUnit = true := List.all_eq_true.mp hu v hv
    simp [runEnumHash, derive_enum, hu, hvu]
  · have hmixed : runEnumHash d v =
        (runMatch (d.variants.filter fun v' => !v'.isUnit)
          (d.variants.any (·.isUnit)) v).map
            fun rest => HashStep.discr :: rest := by
      simp [runEnumHash, derive_enum, hu]
    rw [hmixed]
    unfold runMatch
    by_cases hview : v.isUnit
    · have hfind : (d.variants.filter fun v' => !v'.isUnit).find?
          (fun a => a.ident == v.ident && !v.isUnit) = none := by
        apply List.find?_eq_none.mpr
        intro a _
        rw [hview]
        simp
      have hfb : d.variants.any (·.isUnit) = true :=
        List.any_eq_true.mpr ⟨v, hv, hview⟩
      rw [hfind, hfb, hview]
      simp
    · have hmem : v ∈ d.variants.filter fun v' => !v'.isUnit :=
        List.mem_filter.mpr
          ⟨hv, by rw [Bool.not_eq_true] at hview; rw [hview]; rfl⟩
      cases hfind : (d.variants.filter fun v' => !v'.isUnit).find?
          (fun a => a.ident == v.ident && !v.isUnit) with
      | none =>
        exfalso
        have hnp := List.find?_eq_none.mp hfind v hmem
        rw [Bool.not_eq_true] at hview
        rw [hview] at hnp
        simp at hnp
      | some a =>
        have hpa := List.find?_some hfind
        rw [Bool.not_eq_true] at hview
        rw [hview] at hpa
        have haid : a.ident = v.ident := by
          simp at hpa
          exact hpa
        rw [hview]
        simp [haid]

theorem content_hash_enum_witness :
    runEnumHash ⟨[⟨"A", true⟩, ⟨"B", false⟩]⟩ ⟨"B", false⟩ =
      some [HashStep.discr, HashStep.payload "B"] := by
  have h := content_hash_enum ⟨[⟨"A", true⟩, ⟨"B", false⟩]⟩ ⟨"B", false⟩
    (by decide)
  simpa using h

/-- C7: a struct all of whose fields match the ignore table (including a
struct with zero fields) still gets a derived body — a callable no-op with
hasher parameter `_` and an empty absorption list. -/
theorem content_hash_totality (d : StructDef)
    (h : ∀ f ∈ d.fields,
      IGNORE_FIELDS.any (fun it => f.name == some it.1 && f.typName == it.2)
        = true) :
    derive_struct d = ("_", []) := by
  rw [derive_struct_char]
  have hk : keptFields d = [] := by
    unfold keptFields
    rw [List.filter_eq_nil_iff]
    intro f hf
    rw [notIgnored_eq, h f hf]
    simp
  rw [hk]
  rfl

theorem content_hash_totality_witness :
    derive_struct ⟨[⟨some "span", "Span"⟩, ⟨some "scope_id", "ScopeId"⟩]⟩ =
      ("_", []) :=
  content_hash_totality ⟨[⟨some "span", "Span"⟩, ⟨some "scope_id", "ScopeId"⟩]⟩
    (by decide)

/-- C10: a struct all of whose fields are unnamed (a tuple struct) derives
the same no-op body as the empty struct, whatever the field types. -/
theorem content_hash_tuple_struct (d : StructDef)
    (h : ∀ f ∈ d.fields, f.name = none) :
    derive_struct d = derive_struct ⟨[]⟩ := by
  rw [derive_struct_char, derive_struct_char]
  have hk : keptFields d = [] := by
    unfold keptFields
    rw [List.filter_eq_nil_iff]
    intro f hf
    rw [notIgnored_eq, h f hf]
    simp [Option.isSome]
  rw [hk]
  rfl

theorem content_hash_tuple_struct_witness :
    derive_struct ⟨[⟨none, "Expression"⟩, ⟨none, "Span"⟩]⟩ =
      derive_struct ⟨[]⟩ :=
  content_hash_tuple_struct ⟨[⟨none, "Expression"⟩, ⟨none, "Span"⟩]⟩
    (by decide)

/-- C5: the `ast` attribute's repr choice is a pure three-way function of
shape: structs get `repr(C)`; enums with a payload-carrying (non-unit)
variant get `repr(C, u8)`; all-payload-free enums get `repr(u8)`. -/
theorem ast_layout_three_way :
    astRepr SynItem.structItem = some ReprAttr.c ∧
    (∀ e : SynItemEnum, (∃ v ∈ e.variants, v.fields ≠ SynFields.unit) →
      astRepr (SynItem.enumItem e) = some ReprAttr.cU8) ∧
    (∀ e : SynItemEnum, (∀ v ∈ e.variants, v.fields = SynFields.unit) →
      astRepr (SynItem.enumItem e) = some ReprAttr.u8) := by
  refine ⟨rfl, ?_, ?_⟩
  · rintro e ⟨v, hv, hne⟩
    have hany : e.variants.any (fun v => !(v.fields == SynFields.unit)) = true :=
      List.any_eq_true.mpr ⟨v, hv, by simp [hne]⟩
    simp [astRepr, enum_repr, hany]
  · intro e h
    have hfalse : e.variants.any (fun v => !(v.fields == SynFields.unit))
        = false := by
      rw [Bool.eq_false_iff, Ne, List.any_eq_true]
      rintro ⟨v, hv, hp⟩
      rw [h v hv] at hp
      simp at hp
    simp [astRepr, enum_repr, hfalse]

theorem ast_layout_three_way_witness :
    astRepr (SynItem.enumItem ⟨[⟨SynFields.unit⟩, ⟨SynFields.unnamed 1⟩]⟩) =
      some ReprAttr.cU8 :=
  ast_layout_three_way.2.1 ⟨[⟨SynFields.unit⟩, ⟨SynFields.unnamed 1⟩]⟩
    ⟨⟨SynFields.unnamed 1⟩, by decide, by decide⟩

end Oxc
